import Mathlib

/-!
Verification of the realtime-collaborative-app synchronization core.

The definitions below are a shallow embedding of the repository's
TypeScript sources:
  * the Whiteboard component (stroke model, local gesture handlers
    `startDrawing` / `draw` / `stopDrawing` / `clearCanvas`, and the remote
    handlers for `drawing` / `clear` events);
  * the Chat component (message log, presence tracking, send and delete
    handlers);
  * the api service (`deleteFile` / `deleteMessage` request routing);
  * the SocketService singleton (`connect`);
  * the relay server fan-out (modelled, see the doc comment there).

JavaScript `Map` objects are embedded as association lists whose `set`
replaces the first matching key in place (insertion order preserved) and
appends unknown keys, matching `Map.prototype.set`.  JavaScript truthiness
tests on optional payload fields are embedded by `truthyStr` / `truthyNat`
(absent, `""` and `0` are falsy).  Asynchronous request outcomes are passed
as explicit boolean parameters, and socket emissions are returned as
explicit event lists.
-/

namespace RTApp

/-- A canvas point, from the Whiteboard component's `Point` interface. -/
structure Point where
  x : Int
  y : Int
deriving DecidableEq, Repr

/-- A stroke, from the Whiteboard component's `Stroke` interface. -/
structure Stroke where
  id : String
  points : List Point
  color : String
  width : Nat
  timestamp : Nat
deriving DecidableEq, Repr

/-- The wire-level `DrawingEvent` discriminated union.  `point`, `color`
and `width` are optional exactly as in the TypeScript interface. -/
inductive DrawingEvent where
  | start (strokeId : String) (point : Option Point) (color : Option String) (width : Option Nat)
  | draw (strokeId : String) (point : Option Point)
  | end_ (strokeId : String)
deriving DecidableEq, Repr

/-- The client-side strokes model: a JavaScript `Map<string, Stroke>`
embedded as an insertion-ordered association list. -/
abbrev StrokesMap := List (String × Stroke)

/-- Embedding of `Map.prototype.get`: first entry with the given key. -/
def mapGet (m : StrokesMap) (k : String) : Option Stroke :=
  match m with
  | [] => none
  | (k', v) :: rest => if k' = k then some v else mapGet rest k

/-- Embedding of `Map.prototype.set`: replace the first entry with the
given key in place, or append a fresh entry. -/
def mapSet (m : StrokesMap) (k : String) (v : Stroke) : StrokesMap :=
  match m with
  | [] => [(k, v)]
  | (k', v') :: rest => if k' = k then (k, v) :: rest else (k', v') :: mapSet rest k v

/-- JavaScript truthiness of an optional string (`undefined` and `""` are
falsy). -/
def truthyStr : Option String → Bool
  | none => false
  | some s => !(s == "")

/-- JavaScript truthiness of an optional number (`undefined` and `0` are
falsy). -/
def truthyNat : Option Nat → Bool
  | none => false
  | some n => !(n == 0)

/-- The Whiteboard component's `handleRemoteDrawing`, acting on the strokes
map.  `now` stands for the receiver's `Date.now()` reading. -/
def handleRemoteDrawing (data : DrawingEvent) (now : Nat) (strokes : StrokesMap) : StrokesMap :=
  match data with
  | .start strokeId point color width =>
      if truthyStr color && truthyNat width then
        mapSet strokes strokeId
          { id := strokeId
            points := match point with | some p => [p] | none => []
            color := color.getD ""
            width := width.getD 0
            timestamp := now }
      else strokes
  | .draw strokeId point =>
      match point with
      | some p =>
          match mapGet strokes strokeId with
          | some stroke => mapSet strokes strokeId { stroke with points := stroke.points ++ [p] }
          | none => strokes
      | none => strokes
  | .end_ _ => strokes

/-- A chat message, from the frontend `Message` type (`types/message.ts`). -/
inductive MessageType where
  | text
  | file
  | system
deriving DecidableEq, Repr

/-- The frontend `Message` record (`types/message.ts`).  Optional fields
are `Option`-valued exactly as in the TypeScript interface. -/
structure Message where
  id : String
  type : MessageType
  content : String
  sender : String
  timestamp : Nat
  fileName : Option String := none
  fileSize : Option Nat := none
  fileType : Option String := none
  downloadUrl : Option String := none
  fileId : Option String := none
deriving DecidableEq, Repr

/-- The frontend `User` record (`types/message.ts`). -/
structure User where
  id : String
  name : String
  isOnline : Bool
deriving DecidableEq, Repr

/-- A client-to-server socket emission (`socket.emit(...)` calls). -/
inductive Emit where
  | drawing (e : DrawingEvent)
  | clear
  | chatMessage (m : Message)
  | joinChat (userId userName : String)
deriving DecidableEq, Repr

/-- The Whiteboard component's mutable state: the `isDrawing` flag, the
strokes map and the in-progress `currentStroke`. -/
structure WhiteboardState where
  isDrawing : Bool
  strokes : StrokesMap
  currentStroke : Option Stroke
deriving DecidableEq, Repr

/-- The Whiteboard component's initial state. -/
def initialWhiteboard : WhiteboardState :=
  { isDrawing := false, strokes := [], currentStroke := none }

/-- The Whiteboard's `startDrawing` local-gesture handler: it records the
new stroke in `currentStroke` (NOT in the strokes map), sets `isDrawing`,
and emits a `drawing` event of type `start`.  `strokeId` and `now` stand
for the generated id and `Date.now()`. -/
def startDrawing (p : Point) (strokeId : String) (currentColor : String) (brushWidth : Nat)
    (now : Nat) (st : WhiteboardState) : WhiteboardState × List Emit :=
  let newStroke : Stroke :=
    { id := strokeId, points := [p], color := currentColor, width := brushWidth, timestamp := now }
  ({ st with currentStroke := some newStroke, isDrawing := true },
   [.drawing (.start strokeId (some p) (some currentColor) (some brushWidth))])

/-- The Whiteboard's `draw` local-gesture handler: guarded by `isDrawing`
and `currentStroke`, it appends the point to `currentStroke` and emits a
`drawing` event of type `draw`. -/
def draw (p : Point) (st : WhiteboardState) : WhiteboardState × List Emit :=
  match st.currentStroke with
  | some cs =>
      if st.isDrawing then
        ({ st with currentStroke := some { cs with points := cs.points ++ [p] } },
         [.drawing (.draw cs.id (some p))])
      else (st, [])
  | none => (st, [])

/-- The Whiteboard's `stopDrawing` local-gesture handler: it commits the
current stroke into the strokes map, resets `currentStroke`, and emits a
`drawing` event of type `end`. -/
def stopDrawing (st : WhiteboardState) : WhiteboardState × List Emit :=
  match st.currentStroke with
  | some cs =>
      if st.isDrawing then
        ({ isDrawing := false, strokes := mapSet st.strokes cs.id cs, currentStroke := none },
         [.drawing (.end_ cs.id)])
      else (st, [])
  | none => (st, [])

/-- The Whiteboard's `clearCanvas`: resets the strokes map and
`currentStroke` and EMITS a `clear` event.  It is invoked both by the
local Clear button and by the remote `clear` handler. -/
def clearCanvas (st : WhiteboardState) : WhiteboardState × List Emit :=
  ({ st with strokes := [], currentStroke := none }, [.clear])

/-- The Whiteboard's subscription `socket.on('drawing', handleRemoteDrawing)`
lifted to the component state: it mutates the strokes map and emits
nothing. -/
def handleRemoteDrawingW (data : DrawingEvent) (now : Nat) (st : WhiteboardState) :
    WhiteboardState × List Emit :=
  ({ st with strokes := handleRemoteDrawing data now st.strokes }, [])

/-- The Whiteboard's subscription `socket.on('clear', () => clearCanvas())`:
the remote handler reuses `clearCanvas`, emissions included. -/
def onRemoteClear (st : WhiteboardState) : WhiteboardState × List Emit :=
  clearCanvas st

/-- A complete local drawing gesture: `startDrawing` at `p0`, a `draw` for
each point of `ps`, then `stopDrawing`; the component state and every
emission, in order. -/
def localGesture (st : WhiteboardState) (sid : String) (p0 : Point) (ps : List Point)
    (c : String) (w t : Nat) : WhiteboardState × List Emit :=
  let s1 := startDrawing p0 sid c w t st
  let s2 := ps.foldl (fun a p => let r := draw p a.1; (r.1, a.2 ++ r.2)) s1
  let s3 := stopDrawing s2.1
  (s3.1, s2.2 ++ s3.2)

/-- Application, in arrival order, of remote `draw` events for stroke `sid`
carrying the points `ps`. -/
def applyRemoteDraws (sid : String) (now : Nat) (m : StrokesMap) (ps : List Point) : StrokesMap :=
  ps.foldl (fun mm p => handleRemoteDrawing (.draw sid (some p)) now mm) m

/-- The text message constructed by the Chat component's
`handleSendMessage`; `mid` and `now` stand for the generated id and
`Date.now()`. -/
def mkTextMessage (u : User) (content : String) (mid : String) (now : Nat) : Message :=
  { id := mid, type := .text, content := content, sender := u.name, timestamp := now }

/-- The Chat component's `socket.on('chat_message', handleMessage)`
handler: append the received message to the local log. -/
def handleMessage (message : Message) (prev : List Message) : List Message :=
  prev ++ [message]

/-- The Chat component's `handleSendMessage`: guarded by `currentUser`, it
builds the text message and emits `chat_message`.  It does not touch the
local message log. -/
def handleSendMessage (currentUser : Option User) (content : String) (mid : String) (now : Nat)
    (messages : List Message) : List Message × List Emit :=
  match currentUser with
  | none => (messages, [])
  | some u => (messages, [.chatMessage (mkTextMessage u content mid now)])

/-- The Chat component's `handleUserJoined`: upsert the user (flip
`isOnline` to true if the id is known, else append) and append a synthetic
system message.  `sysId` and `now` stand for the generated id and
`Date.now()`. -/
def handleUserJoined (u : User) (users : List User) (messages : List Message)
    (sysId : String) (now : Nat) : List User × List Message :=
  let users' :=
    if (users.find? (fun x => x.id == u.id)).isSome then
      users.map (fun x => if x.id = u.id then { x with isOnline := true } else x)
    else users ++ [u]
  (users',
   messages ++ [{ id := sysId, type := .system, content := u.name ++ " joined the chat",
                  sender := "system", timestamp := now }])

/-- The Chat component's `handleUserLeft`: if the id is known, flip its
`isOnline` flag to false and append a synthetic system message; unknown
users change nothing. -/
def handleUserLeft (u : User) (users : List User) (messages : List Message)
    (sysId : String) (now : Nat) : List User × List Message :=
  if (users.find? (fun x => x.id == u.id)).isSome then
    (users.map (fun x => if x.id = u.id then { x with isOnline := false } else x),
     messages ++ [{ id := sysId, type := .system, content := u.name ++ " left the chat",
                    sender := "system", timestamp := now }])
  else (users, messages)

/-- The Chat component's `socket.on('users_list', handleUsersList)`
handler: replace the entire known-users list with the received one. -/
def handleUsersList (usersList : List User) (_prev : List User) : List User :=
  usersList

/-- The Chat component's `socket.on('recent_messages', handleRecentMessages)`
handler: replace the entire message log with the received list. -/
def handleRecentMessages (messagesList : List Message) (_prev : List Message) : List Message :=
  messagesList

/-- An out-of-band HTTP request issued by the api service: `deleteFile`
performs `DELETE /files/{fileId}` and `deleteMessage` performs
`DELETE /messages/{messageId}`. -/
inductive DeleteRequest where
  | fileDelete (fileId : String)
  | messageDelete (messageId : String)
deriving DecidableEq, Repr

/-- The Chat component's `handleDeleteMessage`: system messages are
ignored; otherwise, after the confirm dialog (`confirmed`), a file message
with a truthy `fileId` triggers `deleteFile` and every other message
triggers `deleteMessage`; the local log is filtered only when the awaited
request resolves (`requestOk`), and nothing is ever emitted on the socket.
The result is (new log, issued requests, socket emissions). -/
def handleDeleteMessage (message : Message) (confirmed : Bool) (requestOk : Bool)
    (prev : List Message) : List Message × List DeleteRequest × List Emit :=
  if message.type = .system then (prev, [], [])
  else if confirmed = false then (prev, [], [])
  else
    let req : DeleteRequest :=
      if message.type = .file ∧ truthyStr message.fileId = true then
        .fileDelete (message.fileId.getD "")
      else .messageDelete message.id
    if requestOk then (prev.filter (fun m => m.id != message.id), [req], [])
    else (prev, [req], [])

/-- A socket object as the SocketService sees it: an abstract identity and
its `connected` flag. -/
structure Socket where
  sid : Nat
  connected : Bool
deriving DecidableEq, Repr

/-- The service method `SocketService.connect` (`services/socket.ts`): if the stored socket
exists and is connected, return it unchanged; otherwise store and return a
fresh socket (`fresh` stands for the object `io(BACKEND_URL, ...)`
returns).  The result is (returned socket, new stored state). -/
def SocketService.connect (st : Option Socket) (fresh : Socket) : Socket × Option Socket :=
  match st with
  | some s => if s.connected then (s, some s) else (fresh, some fresh)
  | none => (fresh, some fresh)

/-- A server-to-client delivery on one connection. -/
inductive OutEvent where
  | chatMessage (m : Message)
  | drawing (e : DrawingEvent)
  | clear
  | userJoined (id name : String)
  | userLeft (id name : String)
deriving DecidableEq, Repr

/-- Modelled from the spec: the Relay Server's fan-out for `drawing`
events.  The server source (backend `main.py`) is absent from the source
tree, so the relay is taken from §4.2's routing table: `drawing` is
rebroadcast, payload unchanged, "to all other connections".  Deliveries
are (connection id, event) pairs; `conns` is the server's per-connection
registry and `sender` the inbound event's connection. -/
def relayDrawing (conns : List Nat) (sender : Nat) (e : DrawingEvent) : List (Nat × OutEvent) :=
  (conns.filter (fun c => c != sender)).map (fun c => (c, .drawing e))

/-- Modelled from the spec: the Relay Server's fan-out for `clear` events
(backend `main.py` absent); per §4.2, `clear` is rebroadcast "to all other
connections". -/
def relayClear (conns : List Nat) (sender : Nat) : List (Nat × OutEvent) :=
  (conns.filter (fun c => c != sender)).map (fun c => (c, .clear))

/-- Modelled from the spec: the Relay Server's fan-out for `chat_message`
(backend `main.py` absent); per §4.2, the message is persisted and then
rebroadcast `chat_message` "to all other connections" — never back to the
sender (§2, §8 property 3). -/
def relayChatMessage (conns : List Nat) (sender : Nat) (m : Message) : List (Nat × OutEvent) :=
  (conns.filter (fun c => c != sender)).map (fun c => (c, .chatMessage m))

/-- Modelled from the spec: the Relay Server's fan-out for the
`user_joined` broadcast triggered by `join_chat` (backend `main.py`
absent); per §4.2, `user_joined {id,name}` goes "to all other
connections" (the joining connection instead receives
`recent_messages`). -/
def relayUserJoined (conns : List Nat) (sender : Nat) (uid uname : String) :
    List (Nat × OutEvent) :=
  (conns.filter (fun c => c != sender)).map (fun c => (c, .userJoined uid uname))

/-- Modelled from the spec: the Relay Server's fan-out for the `user_left`
broadcast synthesized when a connection closes (backend `main.py` absent);
per §4.2, `user_left {id,name}` goes "to all other connections" — the
closing connection `sender` is excluded from the registry `conns` it may
still appear in. -/
def relayUserLeft (conns : List Nat) (sender : Nat) (uid uname : String) :
    List (Nat × OutEvent) :=
  (conns.filter (fun c => c != sender)).map (fun c => (c, .userLeft uid uname))

/-! Helper lemmas about the strokes map and the event folds. -/

theorem mapGet_mapSet_self (m : StrokesMap) (k : String) (v : Stroke) :
    mapGet (mapSet m k v) k = some v := by
  induction m with
  | nil => simp [mapSet, mapGet]
  | cons hd tl ih =>
      obtain ⟨k', v'⟩ := hd
      by_cases h : k' = k
      · simp [mapSet, h, mapGet]
      · simp [mapSet, h, mapGet, ih]

theorem mapGet_mapSet_ne (m : StrokesMap) (k k' : String) (v : Stroke) (h : k' ≠ k) :
    mapGet (mapSet m k v) k' = mapGet m k' := by
  induction m with
  | nil => simp [mapSet, mapGet, Ne.symm h]
  | cons hd tl ih =>
      obtain ⟨a, b⟩ := hd
      by_cases hak : a = k
      · subst hak
        simp [mapSet, mapGet, Ne.symm h]
      · simp [mapSet, hak, mapGet, ih]

theorem mapSet_mapSet (m : StrokesMap) (k : String) (v v' : Stroke) :
    mapSet (mapSet m k v) k v' = mapSet m k v' := by
  induction m with
  | nil => simp [mapSet]
  | cons hd tl ih =>
      obtain ⟨a, b⟩ := hd
      by_cases hak : a = k
      · simp [mapSet, hak]
      · simp [mapSet, hak, ih]

theorem mapSet_get_self (m : StrokesMap) (k : String) (s : Stroke)
    (h : mapGet m k = some s) : mapSet m k s = m := by
  induction m with
  | nil => simp [mapGet] at h
  | cons hd tl ih =>
      obtain ⟨a, b⟩ := hd
      by_cases hak : a = k
      · subst hak
        simp [mapGet] at h
        simp [mapSet, h]
      · simp [mapGet, hak] at h
        simp [mapSet, hak, ih h]

theorem draw_unknown (sid : String) (now : Nat) (p : Option Point) (m : StrokesMap)
    (h : mapGet m sid = none) : handleRemoteDrawing (.draw sid p) now m = m := by
  cases p with
  | none => rfl
  | some q => simp [handleRemoteDrawing, h]

theorem draw_known (sid : String) (now : Nat) (p : Point) (m : StrokesMap) (s : Stroke)
    (h : mapGet m sid = some s) :
    handleRemoteDrawing (.draw sid (some p)) now m
      = mapSet m sid { s with points := s.points ++ [p] } := by
  simp [handleRemoteDrawing, h]

theorem draws_fold (sid : String) (now : Nat) :
    ∀ (ps : List Point) (m : StrokesMap) (s : Stroke), mapGet m sid = some s →
      applyRemoteDraws sid now m ps = mapSet m sid { s with points := s.points ++ ps } := by
  intro ps
  induction ps with
  | nil =>
      intro m s h
      simpa [applyRemoteDraws] using (mapSet_get_self m sid s h).symm
  | cons p rest ih =>
      intro m s h
      have step := draw_known sid now p m s h
      have hget := mapGet_mapSet_self m sid { s with points := s.points ++ [p] }
      calc applyRemoteDraws sid now m (p :: rest)
          = applyRemoteDraws sid now (handleRemoteDrawing (.draw sid (some p)) now m) rest := by
            simp [applyRemoteDraws]
        _ = mapSet (mapSet m sid { s with points := s.points ++ [p] }) sid
              { s with points := (s.points ++ [p]) ++ rest } := by
            rw [step, ih _ _ hget]
        _ = mapSet m sid { s with points := s.points ++ p :: rest } := by
            rw [mapSet_mapSet]
            simp

theorem local_draws_fold :
    ∀ (ps : List Point) (st : WhiteboardState) (cs : Stroke) (acc : List Emit),
      st.isDrawing = true → st.currentStroke = some cs →
      ps.foldl (fun a p => let r := draw p a.1; (r.1, a.2 ++ r.2)) (st, acc)
        = ({ st with currentStroke := some { cs with points := cs.points ++ ps } },
           acc ++ ps.map (fun p => Emit.drawing (.draw cs.id (some p)))) := by
  intro ps
  induction ps with
  | nil =>
      rintro ⟨d, sm, cur⟩ cs acc h1 h2
      simp at h1 h2
      subst h1 h2
      simp
  | cons p rest ih =>
      rintro ⟨d, sm, cur⟩ cs acc h1 h2
      simp at h1 h2
      subst h1 h2
      have hdr : draw p ⟨true, sm, some cs⟩
          = (⟨true, sm, some { cs with points := cs.points ++ [p] }⟩,
             [Emit.drawing (.draw cs.id (some p))]) := by
        simp [draw]
      rw [List.foldl_cons]
      simp only [hdr]
      rw [ih ⟨true, sm, some { cs with points := cs.points ++ [p] }⟩
          { cs with points := cs.points ++ [p] } _ rfl rfl]
      simp

theorem length_filter_ne_of_nodup :
    ∀ (l : List Nat) (a : Nat), l.Nodup → a ∈ l →
      (l.filter (fun c => c != a)).length = l.length - 1 := by
  intro l a
  induction l with
  | nil => intro _ h; cases h
  | cons b tl ih =>
      intro hnd hmem
      obtain ⟨hb, htl⟩ := List.nodup_cons.mp hnd
      by_cases hba : b = a
      · subst hba
        have hrest : tl.filter (fun c => c != b) = tl :=
          List.filter_eq_self.mpr (fun x hx => by
            have hxb : x ≠ b := fun e => hb (e ▸ hx)
            simpa using hxb)
        simp [List.filter_cons, hrest]
      · have hmem' : a ∈ tl := by
          rcases List.mem_cons.mp hmem with h | h
          · exact absurd h.symm hba
          · exact h
        have hlen : 0 < tl.length := List.length_pos.mpr (List.ne_nil_of_mem hmem')
        have hbne : (b != a) = true := by simpa using hba
        simp only [List.filter_cons, hbne, if_true, List.length_cons, ih htl hmem']
        omega

theorem map_id_of_preserve (f : User → User) (h : ∀ x, (f x).id = x.id) :
    ∀ l : List User, (l.map f).map User.id = l.map User.id := by
  intro l
  induction l with
  | nil => rfl
  | cons a tl ih => simp [h, ih]

theorem map_pair_of_preserve (f : User → User)
    (h : ∀ x, (f x).id = x.id ∧ (f x).name = x.name) :
    ∀ l : List User,
      (l.map f).map (fun x => (x.id, x.name)) = l.map (fun x => (x.id, x.name)) := by
  intro l
  induction l with
  | nil => rfl
  | cons a tl ih => simp [(h a).1, (h a).2, ih]

theorem map_fst_pair {β : Type} (f : Nat → β) :
    ∀ l : List Nat, (l.map (fun c => (c, f c))).map Prod.fst = l := by
  intro l
  induction l with
  | nil => rfl
  | cons a tl ih => simp [ih]

/-! Claim theorems. -/

/-- A concrete chat message used in witnesses. -/
def msgHi : Message :=
  { id := "m1", type := .text, content := "hi", sender := "Ann", timestamp := 0 }

theorem relay_others {β : Type} (conns : List Nat) (sender : Nat) (f : Nat → β)
    (hnd : conns.Nodup) (hmem : sender ∈ conns) :
    ((conns.filter (fun c => c != sender)).map (fun c => (c, f c))).map Prod.fst
        = conns.filter (fun c => c != sender) ∧
    ((conns.filter (fun c => c != sender)).map (fun c => (c, f c))).length
        = conns.length - 1 ∧
    ∀ d ∈ (conns.filter (fun c => c != sender)).map (fun c => (c, f c)), d.1 ≠ sender := by
  refine ⟨map_fst_pair f _, ?_, ?_⟩
  · rw [List.length_map]
    exact length_filter_ne_of_nodup conns sender hnd hmem
  · intro d hd
    simp only [List.mem_map] at hd
    obtain ⟨c, hc, rfl⟩ := hd
    have := List.of_mem_filter hc
    simpa using this

/-- C1: for every event kind the Relay Server handles — `drawing`,
`clear`, `chat_message`, `user_joined` and `user_left` — the fan-out from
a registry of N distinct connections delivers the event to exactly the
N−1 other connections (their recipient list is precisely the registry
without the sender) and never back to the originating connection. -/
theorem relay_fanout (conns : List Nat) (sender : Nat) (e : DrawingEvent) (m : Message)
    (uid uname : String) (hnd : conns.Nodup) (hmem : sender ∈ conns) :
    ((relayDrawing conns sender e).map Prod.fst = conns.filter (fun c => c != sender) ∧
     (relayDrawing conns sender e).length = conns.length - 1 ∧
     ∀ d ∈ relayDrawing conns sender e, d.1 ≠ sender) ∧
    ((relayClear conns sender).map Prod.fst = conns.filter (fun c => c != sender) ∧
     (relayClear conns sender).length = conns.length - 1 ∧
     ∀ d ∈ relayClear conns sender, d.1 ≠ sender) ∧
    ((relayChatMessage conns sender m).map Prod.fst = conns.filter (fun c => c != sender) ∧
     (relayChatMessage conns sender m).length = conns.length - 1 ∧
     ∀ d ∈ relayChatMessage conns sender m, d.1 ≠ sender) ∧
    ((relayUserJoined conns sender uid uname).map Prod.fst
        = conns.filter (fun c => c != sender) ∧
     (relayUserJoined conns sender uid uname).length = conns.length - 1 ∧
     ∀ d ∈ relayUserJoined conns sender uid uname, d.1 ≠ sender) ∧
    ((relayUserLeft conns sender uid uname).map Prod.fst
        = conns.filter (fun c => c != sender) ∧
     (relayUserLeft conns sender uid uname).length = conns.length - 1 ∧
     ∀ d ∈ relayUserLeft conns sender uid uname, d.1 ≠ sender) :=
  ⟨relay_others conns sender _ hnd hmem,
   relay_others conns sender _ hnd hmem,
   relay_others conns sender _ hnd hmem,
   relay_others conns sender _ hnd hmem,
   relay_others conns sender _ hnd hmem⟩

/-- C1 witness: the fan-out facts evaluated on the three concrete
connections `[1, 2, 3]` with sender `2`: every relayed event reaches
exactly connections `[1, 3]`. -/
theorem relay_fanout_witness :
    ((relayDrawing [1, 2, 3] 2 (.end_ "s1")).map Prod.fst
        = ([1, 2, 3] : List Nat).filter (fun c => c != 2) ∧
     (relayDrawing [1, 2, 3] 2 (.end_ "s1")).length = ([1, 2, 3] : List Nat).length - 1 ∧
     ∀ d ∈ relayDrawing [1, 2, 3] 2 (.end_ "s1"), d.1 ≠ 2) ∧
    ((relayClear [1, 2, 3] 2).map Prod.fst = ([1, 2, 3] : List Nat).filter (fun c => c != 2) ∧
     (relayClear [1, 2, 3] 2).length = ([1, 2, 3] : List Nat).length - 1 ∧
     ∀ d ∈ relayClear [1, 2, 3] 2, d.1 ≠ 2) ∧
    ((relayChatMessage [1, 2, 3] 2 msgHi).map Prod.fst
        = ([1, 2, 3] : List Nat).filter (fun c => c != 2) ∧
     (relayChatMessage [1, 2, 3] 2 msgHi).length = ([1, 2, 3] : List Nat).length - 1 ∧
     ∀ d ∈ relayChatMessage [1, 2, 3] 2 msgHi, d.1 ≠ 2) ∧
    ((relayUserJoined [1, 2, 3] 2 "u1" "Ann").map Prod.fst
        = ([1, 2, 3] : List Nat).filter (fun c => c != 2) ∧
     (relayUserJoined [1, 2, 3] 2 "u1" "Ann").length = ([1, 2, 3] : List Nat).length - 1 ∧
     ∀ d ∈ relayUserJoined [1, 2, 3] 2 "u1" "Ann", d.1 ≠ 2) ∧
    ((relayUserLeft [1, 2, 3] 2 "u1" "Ann").map Prod.fst
        = ([1, 2, 3] : List Nat).filter (fun c => c != 2) ∧
     (relayUserLeft [1, 2, 3] 2 "u1" "Ann").length = ([1, 2, 3] : List Nat).length - 1 ∧
     ∀ d ∈ relayUserLeft [1, 2, 3] 2 "u1" "Ann", d.1 ≠ 2) :=
  relay_fanout [1, 2, 3] 2 (.end_ "s1") msgHi "u1" "Ann" (by decide) (by decide)

/-- A concrete user used in counterexamples. -/
def annUser : User := { id := "u1", name := "Ann", isOnline := true }

/-- C2 counterexample: starting from an empty log, `handleSendMessage`
emits the `chat_message` but leaves the sender's local log empty — the
sent message is NOT in the sender's log after the send action. -/
theorem send_message_not_applied_locally :
    (handleSendMessage (some annUser) "hi" "m1" 5 []).1 = ([] : List Message) ∧
    mkTextMessage annUser "hi" "m1" 5 ∉ (handleSendMessage (some annUser) "hi" "m1" 5 []).1 ∧
    (handleSendMessage (some annUser) "hi" "m1" 5 []).2
      = [Emit.chatMessage (mkTextMessage annUser "hi" "m1" 5)] := by
  decide

/-- C2 amended: `handleSendMessage` never mutates the local log — it only
constructs the message and emits `chat_message` (or does nothing when no
current user is set); the message enters the sender's log only when the
`chat_message` event is received back, via `handleMessage`, which appends
it. -/
theorem send_message_emits_only (u : User) (content mid : String) (now : Nat)
    (messages : List Message) :
    (handleSendMessage (some u) content mid now messages).1 = messages ∧
    (handleSendMessage (some u) content mid now messages).2
      = [Emit.chatMessage (mkTextMessage u content mid now)] ∧
    handleSendMessage none content mid now messages = (messages, []) ∧
    handleMessage (mkTextMessage u content mid now) messages
      = messages ++ [mkTextMessage u content mid now] := by
  exact ⟨rfl, rfl, rfl, rfl⟩

/-- C3 counterexample: the local and remote paths do not apply identical
per-event state updates, and remote handling is not emission-free.  On the
initial state, local `startDrawing` leaves the strokes map empty (the new
stroke lives in `currentStroke`), while the remote `start` handler inserts
the stroke into the map immediately; and the remote `clear` handler, which
reuses `clearCanvas`, emits a `clear` event instead of emitting nothing. -/
theorem local_remote_paths_differ :
    (startDrawing ⟨0, 0⟩ "s1" "#000" 2 0 initialWhiteboard).1.strokes = ([] : StrokesMap) ∧
    handleRemoteDrawing (.start "s1" (some ⟨0, 0⟩) (some "#000") (some 2)) 0 ([] : StrokesMap)
      = [("s1", { id := "s1", points := [⟨0, 0⟩], color := "#000", width := 2,
                  timestamp := 0 })] ∧
    (onRemoteClear initialWhiteboard).2 = [Emit.clear] ∧
    ([Emit.clear] : List Emit) ≠ [] := by
  decide

/-- C3 amended: the per-event updates differ (the local path accumulates
the gesture in `currentStroke` and commits it only at `stopDrawing`), but
a complete local gesture (start, draws, end) produces exactly the same
final strokes map as applying the correspondingly emitted remote events,
evaluated at the same clock reading; the remote `drawing` handler emits
nothing, while the remote `clear` handler — because it reuses
`clearCanvas` — additionally emits a `clear` event. -/
theorem drawing_paths_equivalent (st : WhiteboardState) (rm : StrokesMap) (sid : String)
    (p0 : Point) (ps : List Point) (c : String) (w t : Nat) (hc : c ≠ "") (hw : w ≠ 0) :
    (localGesture st sid p0 ps c w t).2
      = Emit.drawing (.start sid (some p0) (some c) (some w))
          :: ps.map (fun p => Emit.drawing (.draw sid (some p)))
          ++ [Emit.drawing (.end_ sid)] ∧
    (localGesture st sid p0 ps c w t).1.strokes
      = mapSet st.strokes sid { id := sid, points := p0 :: ps, color := c, width := w,
                                timestamp := t } ∧
    handleRemoteDrawing (.end_ sid) t
        (applyRemoteDraws sid t
          (handleRemoteDrawing (.start sid (some p0) (some c) (some w)) t rm) ps)
      = mapSet rm sid { id := sid, points := p0 :: ps, color := c, width := w,
                        timestamp := t } ∧
    (∀ (e : DrawingEvent) (now : Nat) (st' : WhiteboardState),
      (handleRemoteDrawingW e now st').2 = ([] : List Emit)) ∧
    (∀ st' : WhiteboardState, (onRemoteClear st').2 = [Emit.clear]) := by
  have hstart :
      startDrawing p0 sid c w t st
        = ({ st with currentStroke := some ⟨sid, [p0], c, w, t⟩, isDrawing := true },
           [Emit.drawing (.start sid (some p0) (some c) (some w))]) := rfl
  have hfold := local_draws_fold ps
      { st with currentStroke := some ⟨sid, [p0], c, w, t⟩, isDrawing := true }
      ⟨sid, [p0], c, w, t⟩
      [Emit.drawing (.start sid (some p0) (some c) (some w))] rfl rfl
  have hrstart :
      handleRemoteDrawing (.start sid (some p0) (some c) (some w)) t rm
        = mapSet rm sid ⟨sid, [p0], c, w, t⟩ := by
    simp [handleRemoteDrawing, truthyStr, truthyNat, hc, hw]
  refine ⟨?_, ?_, ?_, fun e now st' => rfl, fun st' => rfl⟩
  · simp only [localGesture, hstart, hfold]
    simp [stopDrawing]
  · simp only [localGesture, hstart, hfold]
    simp [stopDrawing]
  · rw [hrstart,
      draws_fold sid t ps _ _ (mapGet_mapSet_self rm sid _),
      mapSet_mapSet]
    simp [handleRemoteDrawing]

/-- C3 witness: the amended equivalence evaluated on a concrete two-point
gesture. -/
theorem drawing_paths_equivalent_witness :
    (localGesture initialWhiteboard "s1" ⟨0, 0⟩ [⟨5, 5⟩] "#000" 2 7).2
      = Emit.drawing (.start "s1" (some ⟨0, 0⟩) (some "#000") (some 2))
          :: ([⟨5, 5⟩] : List Point).map (fun p => Emit.drawing (.draw "s1" (some p)))
          ++ [Emit.drawing (.end_ "s1")] ∧
    (localGesture initialWhiteboard "s1" ⟨0, 0⟩ [⟨5, 5⟩] "#000" 2 7).1.strokes
      = mapSet ([] : StrokesMap) "s1"
          { id := "s1", points := [⟨0, 0⟩, ⟨5, 5⟩], color := "#000", width := 2,
            timestamp := 7 } ∧
    handleRemoteDrawing (.end_ "s1") 7
        (applyRemoteDraws "s1" 7
          (handleRemoteDrawing (.start "s1" (some ⟨0, 0⟩) (some "#000") (some 2)) 7
            ([] : StrokesMap)) [⟨5, 5⟩])
      = mapSet ([] : StrokesMap) "s1"
          { id := "s1", points := [⟨0, 0⟩, ⟨5, 5⟩], color := "#000", width := 2,
            timestamp := 7 } ∧
    (∀ (e : DrawingEvent) (now : Nat) (st' : WhiteboardState),
      (handleRemoteDrawingW e now st').2 = ([] : List Emit)) ∧
    (∀ st' : WhiteboardState, (onRemoteClear st').2 = [Emit.clear]) :=
  drawing_paths_equivalent initialWhiteboard [] "s1" ⟨0, 0⟩ [⟨5, 5⟩] "#000" 2 7
    (by decide) (by decide)

/-- The strokes map reached by applying `start s1 (0,0)` then
`draw s1 (1,1)` remotely: stroke `s1` has points `[(0,0), (1,1)]`. -/
def strokesBeforeDupStart : StrokesMap :=
  handleRemoteDrawing (.draw "s1" (some ⟨1, 1⟩)) 0
    (handleRemoteDrawing (.start "s1" (some ⟨0, 0⟩) (some "#000") (some 2)) 0 [])

/-- The same map after a duplicate `start` for `s1` arrives. -/
def strokesAfterDupStart : StrokesMap :=
  handleRemoteDrawing (.start "s1" (some ⟨2, 2⟩) (some "#fff") (some 3)) 0 strokesBeforeDupStart

/-- C4 counterexample: a duplicate `start` event for an existing stroke id
replaces the stroke, truncating its points from `[(0,0), (1,1)]` to
`[(2,2)]` — a non-clear operation after which the points sequence is not
an extension of its previous value (its length drops from 2 to 1). -/
theorem duplicate_start_truncates_points :
    (mapGet strokesBeforeDupStart "s1").map Stroke.points = some [⟨0, 0⟩, ⟨1, 1⟩] ∧
    (mapGet strokesAfterDupStart "s1").map Stroke.points = some [⟨2, 2⟩] ∧
    ((mapGet strokesAfterDupStart "s1").map Stroke.points).map List.length = some 1 ∧
    ((mapGet strokesBeforeDupStart "s1").map Stroke.points).map List.length = some 2 := by
  decide

/-- C4 amended: once a stroke exists, every drawing event other than a
`start` event carrying that same stroke id (and other than a canvas-wide
clear) leaves the stroke's points sequence an extension of its previous
value; a duplicate `start` passing the color/width guard instead replaces
the stroke (last start wins). -/
theorem stroke_points_extend (m : StrokesMap) (e : DrawingEvent) (now : Nat) (sid : String)
    (s : Stroke) (hs : mapGet m sid = some s)
    (hne : ∀ p c w, e ≠ .start sid p c w) :
    ∃ s' suf, mapGet (handleRemoteDrawing e now m) sid = some s' ∧
      s'.points = s.points ++ suf := by
  cases e with
  | start sid' p c w =>
      have hsid : sid' ≠ sid := by
        intro h
        exact hne p c w (by rw [h])
      refine ⟨s, [], ?_, by simp⟩
      by_cases hg : (truthyStr c && truthyNat w) = true
      · simp [handleRemoteDrawing, hg, mapGet_mapSet_ne _ _ _ _ hsid.symm, hs]
      · simp [handleRemoteDrawing, hg, hs]
  | draw sid' p =>
      cases p with
      | none => exact ⟨s, [], by simpa [handleRemoteDrawing] using hs, by simp⟩
      | some q =>
          by_cases hsid : sid' = sid
          · subst hsid
            refine ⟨{ s with points := s.points ++ [q] }, [q], ?_, rfl⟩
            rw [draw_known sid' now q m s hs]
            exact mapGet_mapSet_self _ _ _
          · refine ⟨s, [], ?_, by simp⟩
            cases hget : mapGet m sid' with
            | none => simpa [handleRemoteDrawing, hget] using hs
            | some s2 =>
                rw [draw_known sid' now q m s2 hget]
                rw [mapGet_mapSet_ne _ _ _ _ (fun h => hsid h.symm)]
                exact hs
  | end_ sid' => exact ⟨s, [], by simpa [handleRemoteDrawing] using hs, by simp⟩

/-- C4 witness: an `end` event for another stroke leaves stroke `s1`'s
points an extension of their previous value. -/
theorem stroke_points_extend_witness :
    mapGet strokesBeforeDupStart "s1"
      = some { id := "s1", points := [⟨0, 0⟩, ⟨1, 1⟩], color := "#000", width := 2,
               timestamp := 0 } ∧
    (∃ s' suf,
      mapGet (handleRemoteDrawing (.end_ "s2") 0 strokesBeforeDupStart) "s1" = some s' ∧
        s'.points
          = ({ id := "s1", points := [⟨0, 0⟩, ⟨1, 1⟩], color := "#000", width := 2,
               timestamp := 0 } : Stroke).points ++ suf) :=
  ⟨by decide,
   stroke_points_extend strokesBeforeDupStart (.end_ "s2") 0 "s1" _ (by decide)
     (fun p c w h => by cases h)⟩

/-- C5 counterexample: after `start s1` carrying point `(0,0)` and one
`draw s1` carrying `(5,5)`, the stroke's points are `[(0,0), (5,5)]` —
not `[(5,5)]`, the concatenation of the points of the draw events alone:
the start event's point is part of the sequence. -/
theorem points_include_start_point :
    (mapGet (handleRemoteDrawing (.draw "s1" (some ⟨5, 5⟩)) 0
        (handleRemoteDrawing (.start "s1" (some ⟨0, 0⟩) (some "#000") (some 2)) 0 []))
        "s1").map Stroke.points
      = some [⟨0, 0⟩, ⟨5, 5⟩] ∧
    some [(⟨0, 0⟩ : Point), ⟨5, 5⟩] ≠ some [(⟨5, 5⟩ : Point)] := by
  decide

/-- C5 amended: for a stroke started by a guard-passing `start` event
carrying point `p0`, the points sequence after any sequence of `draw`
events for that id equals `p0` followed by the concatenation, in arrival
order, of the draw events' points; and a `draw` event for an unknown
stroke id leaves the model completely unchanged. -/
theorem stroke_points_concat (m : StrokesMap) (sid : String) (p0 : Point) (ps : List Point)
    (c : String) (w now : Nat) (hc : c ≠ "") (hw : w ≠ 0) :
    mapGet (applyRemoteDraws sid now
        (handleRemoteDrawing (.start sid (some p0) (some c) (some w)) now m) ps) sid
      = some { id := sid, points := p0 :: ps, color := c, width := w, timestamp := now } ∧
    (∀ (p : Option Point) (m' : StrokesMap),
      mapGet m' sid = none → handleRemoteDrawing (.draw sid p) now m' = m') := by
  constructor
  · have hrstart :
        handleRemoteDrawing (.start sid (some p0) (some c) (some w)) now m
          = mapSet m sid ⟨sid, [p0], c, w, now⟩ := by
      simp [handleRemoteDrawing, truthyStr, truthyNat, hc, hw]
    rw [hrstart, draws_fold sid now ps _ _ (mapGet_mapSet_self m sid _), mapSet_mapSet]
    simpa using mapGet_mapSet_self m sid ⟨sid, p0 :: ps, c, w, now⟩
  · intro p m' h
    exact draw_unknown sid now p m' h

/-- C5 witness: the concatenation law evaluated at a concrete start and
two draw events, and the unknown-id no-op evaluated on the empty map. -/
theorem stroke_points_concat_witness :
    mapGet (applyRemoteDraws "s1" 3
        (handleRemoteDrawing (.start "s1" (some ⟨0, 0⟩) (some "#abc") (some 4)) 3 [])
        [⟨1, 1⟩, ⟨2, 2⟩]) "s1"
      = some { id := "s1", points := [⟨0, 0⟩, ⟨1, 1⟩, ⟨2, 2⟩], color := "#abc", width := 4,
               timestamp := 3 } ∧
    (∀ (p : Option Point) (m' : StrokesMap),
      mapGet m' "s1" = none → handleRemoteDrawing (.draw "s1" p) 3 m' = m') :=
  stroke_points_concat [] "s1" ⟨0, 0⟩ [⟨1, 1⟩, ⟨2, 2⟩] "#abc" 4 3 (by decide) (by decide)

/-- C6 counterexample: the Chat component also subscribes `users_list`,
whose handler replaces the entire known-users list; applying it with an
empty payload to a state that knows `u1` removes `u1` from the known-users
set, so not every handled event preserves membership. -/
theorem users_list_removes_users :
    handleUsersList [] [annUser] = ([] : List User) ∧
    annUser.id ∈ ([annUser] : List User).map User.id ∧
    annUser.id ∉ (handleUsersList [] [annUser]).map User.id := by
  decide

/-- C6 amended: `user_joined` and `user_left` never remove a user — the
id list is preserved by `user_left` and at most extended by one id by
`user_joined`, and `user_left` changes nothing but `isOnline` flags
(ids and names are untouched) — but the `users_list` handler replaces the
whole known-users list with the received one. -/
theorem presence_soft_delete_only (users : List User) (messages : List Message) (u v : User)
    (sysId sysId' : String) (now now' : Nat) :
    ((handleUserJoined u users messages sysId now).1.map User.id = users.map User.id ∨
     (handleUserJoined u users messages sysId now).1.map User.id
        = users.map User.id ++ [u.id]) ∧
    (handleUserLeft v users messages sysId' now').1.map User.id = users.map User.id ∧
    (handleUserLeft v users messages sysId' now').1.map (fun x => (x.id, x.name))
      = users.map (fun x => (x.id, x.name)) ∧
    (∀ l : List User, handleUsersList l users = l) := by
  refine ⟨?_, ?_, ?_, fun l => rfl⟩
  · by_cases h : (users.find? (fun x => x.id == u.id)).isSome
    · left
      simp only [handleUserJoined, h, if_true]
      exact map_id_of_preserve _ (fun x => by by_cases hx : x.id = u.id <;> simp [hx]) users
    · right
      simp [handleUserJoined, h]
  · by_cases h : (users.find? (fun x => x.id == v.id)).isSome
    · simp only [handleUserLeft, h, if_true]
      exact map_id_of_preserve _ (fun x => by by_cases hx : x.id = v.id <;> simp [hx]) users
    · simp [handleUserLeft, h]
  · by_cases h : (users.find? (fun x => x.id == v.id)).isSome
    · simp only [handleUserLeft, h, if_true]
      exact map_pair_of_preserve _ (fun x => by by_cases hx : x.id = v.id <;> simp [hx]) users
    · simp [handleUserLeft, h]

/-- C7: deleting a non-system message filters it from the local log
exactly when the awaited out-of-band request succeeds, leaves the log
unchanged when the request fails, and never emits any event on the socket
(for any message, confirmation outcome and request outcome), so no other
client's log can be affected by it. -/
theorem delete_local_only_and_atomic (msg : Message) (messages : List Message)
    (hns : msg.type ≠ .system) :
    (handleDeleteMessage msg true true messages).1
      = messages.filter (fun m => m.id != msg.id) ∧
    (handleDeleteMessage msg true false messages).1 = messages ∧
    (∀ (msg' : Message) (confirmed ok : Bool) (messages' : List Message),
      (handleDeleteMessage msg' confirmed ok messages').2.2 = ([] : List Emit)) := by
  refine ⟨?_, ?_, ?_⟩
  · simp [handleDeleteMessage, hns]
  · simp [handleDeleteMessage, hns]
  · intro msg' confirmed ok messages'
    by_cases h1 : msg'.type = MessageType.system
    · simp [handleDeleteMessage, h1]
    · by_cases h2 : confirmed = false
      · simp [handleDeleteMessage, h1, h2]
      · by_cases h3 : ok <;> simp [handleDeleteMessage, h1, h2, h3]

/-- C7 witness: deleting the concrete text message `msgHi` from a two
message log removes exactly it on success, keeps the log intact on
failure, and emits nothing. -/
theorem delete_local_only_and_atomic_witness :
    (handleDeleteMessage msgHi true true [msgHi, mkTextMessage annUser "yo" "m2" 9]).1
      = ([msgHi, mkTextMessage annUser "yo" "m2" 9] :
          List Message).filter (fun m => m.id != msgHi.id) ∧
    (handleDeleteMessage msgHi true false [msgHi, mkTextMessage annUser "yo" "m2" 9]).1
      = [msgHi, mkTextMessage annUser "yo" "m2" 9] ∧
    (∀ (msg' : Message) (confirmed ok : Bool) (messages' : List Message),
      (handleDeleteMessage msg' confirmed ok messages').2.2 = ([] : List Emit)) :=
  delete_local_only_and_atomic msgHi [msgHi, mkTextMessage annUser "yo" "m2" 9] (by decide)

/-- C8: `connect` is idempotent.  If the stored socket is connected,
`connect` returns it and leaves the service state unchanged; consequently,
whenever a first `connect` hands out a connected socket, a second
`connect` returns the very same socket and state as the single call did. -/
theorem connect_idempotent (s fresh1 fresh2 : Socket) (st : Option Socket) :
    (s.connected = true → SocketService.connect (some s) fresh1 = (s, some s)) ∧
    ((SocketService.connect st fresh1).1.connected = true →
      SocketService.connect (SocketService.connect st fresh1).2 fresh2
        = ((SocketService.connect st fresh1).1, (SocketService.connect st fresh1).2)) := by
  constructor
  · intro h
    simp [SocketService.connect, h]
  · intro h
    have key : ∀ s1 : Socket, s1.connected = true →
        SocketService.connect (some s1) fresh2 = (s1, some s1) := by
      intro s1 h1
      simp [SocketService.connect, h1]
    cases st with
    | none =>
        have hc : SocketService.connect none fresh1 = (fresh1, some fresh1) := rfl
        rw [hc] at h ⊢
        exact key fresh1 h
    | some s0 =>
        by_cases h0 : s0.connected = true
        · have hc : SocketService.connect (some s0) fresh1 = (s0, some s0) := by
            simp [SocketService.connect, h0]
          rw [hc] at h ⊢
          exact key s0 h
        · have hc : SocketService.connect (some s0) fresh1 = (fresh1, some fresh1) := by
            simp [SocketService.connect, h0]
          rw [hc] at h ⊢
          exact key fresh1 h

/-- C8 witness: with a connected stored socket `⟨1, true⟩`, `connect`
returns it unchanged, and after connecting from the empty state with a
connected fresh socket `⟨3, true⟩`, a second `connect` returns the same
pair. -/
theorem connect_idempotent_witness :
    SocketService.connect (some ⟨1, true⟩) ⟨2, false⟩ = (⟨1, true⟩, some ⟨1, true⟩) ∧
    SocketService.connect (SocketService.connect none ⟨3, true⟩).2 ⟨4, false⟩
      = ((SocketService.connect none ⟨3, true⟩).1, (SocketService.connect none ⟨3, true⟩).2) :=
  ⟨(connect_idempotent ⟨1, true⟩ ⟨2, false⟩ ⟨4, false⟩ none).1 rfl,
   (connect_idempotent ⟨1, true⟩ ⟨3, true⟩ ⟨4, false⟩ none).2 rfl⟩

/-- C9: a remote `start` event whose color is absent or empty, or whose
width is absent or zero, fails the JavaScript truthiness guard and creates
no stroke — the map is unchanged — and, the stroke id still being unknown,
every following sequence of `draw` events carrying that id is also a
no-op. -/
theorem falsy_start_dropped (m : StrokesMap) (sid : String) (point : Option Point)
    (color : Option String) (width : Option Nat) (now : Nat) (ps : List (Option Point))
    (hunknown : mapGet m sid = none)
    (hfalsy : truthyStr color = false ∨ truthyNat width = false) :
    handleRemoteDrawing (.start sid point color width) now m = m ∧
    ps.foldl (fun mm p => handleRemoteDrawing (.draw sid p) now mm)
        (handleRemoteDrawing (.start sid point color width) now m) = m := by
  have hguard : (truthyStr color && truthyNat width) = false := by
    rcases hfalsy with h | h <;> simp [h]
  have hstart : handleRemoteDrawing (.start sid point color width) now m = m := by
    simp [handleRemoteDrawing, hguard]
  refine ⟨hstart, ?_⟩
  rw [hstart]
  induction ps with
  | nil => rfl
  | cons p rest ih =>
      rw [List.foldl_cons, draw_unknown sid now p m hunknown]
      exact ih

/-- C9 witness: a `start` for `s2` with color `""` on a map that does not
know `s2` changes nothing, and two subsequent draws for `s2` are also
no-ops. -/
theorem falsy_start_dropped_witness :
    handleRemoteDrawing (.start "s2" (some ⟨0, 0⟩) (some "") (some 2)) 0
        strokesBeforeDupStart = strokesBeforeDupStart ∧
    ([some ⟨1, 1⟩, none] : List (Option Point)).foldl
        (fun mm p => handleRemoteDrawing (.draw "s2" p) 0 mm)
        (handleRemoteDrawing (.start "s2" (some ⟨0, 0⟩) (some "") (some 2)) 0
          strokesBeforeDupStart) = strokesBeforeDupStart :=
  falsy_start_dropped strokesBeforeDupStart "s2" (some ⟨0, 0⟩) (some "") (some 2) 0
    [some ⟨1, 1⟩, none] (by decide) (by decide)

/-- C10: for a well-formed file message (one with a truthy `fileId`, as
the data model guarantees), `handleDeleteMessage` issues exactly the
file-delete request and never a message-delete request, leaving the
durable chat-message record untouched; the message-delete request is
issued exactly for text messages, and system messages issue no request. -/
theorem file_delete_routing (msg : Message) (messages : List Message) (ok : Bool) :
    (∀ fid, msg.fileId = some fid → fid ≠ "" → msg.type = .file →
      (handleDeleteMessage msg true ok messages).2.1 = [DeleteRequest.fileDelete fid] ∧
      ∀ mid, DeleteRequest.messageDelete mid ∉ (handleDeleteMessage msg true ok messages).2.1) ∧
    (msg.type = .system → (handleDeleteMessage msg true ok messages).2.1 = []) ∧
    (msg.type = .text →
      (handleDeleteMessage msg true ok messages).2.1 = [DeleteRequest.messageDelete msg.id]) := by
  refine ⟨?_, ?_, ?_⟩
  · intro fid hfid hne hf
    have htruthy : truthyStr (some fid) = true := by
      simpa [truthyStr] using hne
    have hreq : (handleDeleteMessage msg true ok messages).2.1
        = [DeleteRequest.fileDelete fid] := by
      have : msg.type ≠ MessageType.system := by rw [hf]; intro h; cases h
      cases ok <;> simp [handleDeleteMessage, this, hf, htruthy, hfid]
    exact ⟨hreq, fun mid hmem => by rw [hreq] at hmem; simp at hmem⟩
  · intro hs
    simp [handleDeleteMessage, hs]
  · intro ht
    have hns : msg.type ≠ MessageType.system := by rw [ht]; intro h; cases h
    have hnf : ¬ (msg.type = MessageType.file ∧ truthyStr msg.fileId = true) := by
      rw [ht]; rintro ⟨h, -⟩; cases h
    cases ok <;> simp [handleDeleteMessage, hns, hnf]

/-- A concrete well-formed file message used in the C10 witness. -/
def fileMsg : Message :=
  { id := "fm1", type := .file, content := "https://x/f1", sender := "Ann",
    timestamp := 0, fileId := some "f1" }

/-- C10 witness: deleting the concrete file message `fileMsg` issues only
`DELETE /files/f1` and no message-delete request, while deleting the text
message `msgHi` issues exactly the message-delete request for its id. -/
theorem file_delete_routing_witness :
    ((handleDeleteMessage fileMsg true true []).2.1 = [DeleteRequest.fileDelete "f1"] ∧
     ∀ mid, DeleteRequest.messageDelete mid ∉ (handleDeleteMessage fileMsg true true []).2.1) ∧
    (handleDeleteMessage msgHi true true []).2.1 = [DeleteRequest.messageDelete "m1"] :=
  ⟨(file_delete_routing fileMsg [] true).1 "f1" rfl (by decide) rfl,
   (file_delete_routing msgHi [] true).2.2 rfl⟩

end RTApp
